import Mathlib

/-!
Shallow embedding of the face-recognition attendance core of the repository
(`services/face_recognition_service.py` and `utils/image_quality_checker.py`),
together with proofs of the behavioural claims about it.

Modelling conventions:
* numeric scores (blur score, brightness, distances, confidences) are `ℚ`;
  the claims only involve comparisons and exact arithmetic on these values;
* an image, for the quality gate, is its measured attributes (blur score,
  mean brightness, width, height); an undecodable file is `Option.none`;
* face embeddings are opaque tokens and the external
  `face_recognition.face_distance` primitive is passed in as an explicit
  function argument `dist : Emb → Emb → ℚ`, mirroring the spec's treatment
  of the detector/embedder as a black-box capability;
* Python exceptions are modelled with `Except String`;
* writing an unrecognized-face crop to disk is modelled by the emission of
  the corresponding `UnrecEntry` record (one record per `cv2.imwrite`);
  the uuid file name and wall-clock timestamp are abstracted away.
-/

namespace FaceRec

/-- Configuration constants (config.py and the service defaults). -/
def RECOGNITION_TOLERANCE : ℚ := mkRat 46 100

def BLUR_THRESHOLD : ℚ := 50

def MIN_BRIGHTNESS : ℚ := 40

def MAX_BRIGHTNESS : ℚ := 220

/-- Measured attributes of a successfully decoded image
(`cv2.imread` succeeded): what `check_image_quality` computes from pixels. -/
structure Image where
  blur_score : ℚ
  brightness : ℚ
  width : ℕ
  height : ℕ
deriving DecidableEq, Repr

/-- One entry of the `issues` / `warnings` lists.  The undecodable-image
branch of `check_image_quality` appends a bare string
(`'Invalid image format'`); all other branches append a dict with
type/severity/message/recommendation. -/
inductive IssueEntry where
  | plain (msg : String)
  | detail (type severity message recommendation : String)
deriving DecidableEq, Repr

/-- The quality report dict returned by
`FaceRecognitionService.check_image_quality`.  Keys that are absent in a
given Python return value are `none` / `[]` here. -/
structure QualityReport where
  acceptable : Bool
  quality_score : Option ℤ
  blur_score : Option ℚ
  brightness : Option ℚ
  resolution : Option (ℕ × ℕ)
  issues : List IssueEntry
  warnings : List IssueEntry
  error : Option String
deriving DecidableEq, Repr

/-- The report returned when `cv2.imread` yields `None`. -/
def invalidFormatReport : QualityReport :=
  { acceptable := false
    quality_score := none
    blur_score := none
    brightness := none
    resolution := none
    issues := [.plain "Invalid image format"]
    warnings := []
    error := some "Could not read image file" }

def blurIssue : IssueEntry :=
  .detail "blur" "critical" "Image is too blurred"
    "Hold camera steady and ensure proper focus"

def darkIssue : IssueEntry :=
  .detail "lighting" "critical" "Image is too dark"
    "Improve lighting conditions"

def overexposedWarning : IssueEntry :=
  .detail "lighting" "warning" "Image may be overexposed"
    "Avoid direct bright light"

def lowResolutionWarning (w h : ℕ) : IssueEntry :=
  .detail "resolution" "warning"
    ("Low resolution (" ++ toString w ++ "x" ++ toString h ++ ")")
    "Use higher resolution if possible"

/-- `FaceRecognitionService.check_image_quality` on a decodable image
(the body of the `try` block after the `imread` None-check). -/
def check_image_quality_decoded (img : Image) : QualityReport :=
  let blurIssues : List IssueEntry :=
    if img.blur_score < BLUR_THRESHOLD then [blurIssue] else []
  let lighting : List IssueEntry × List IssueEntry :=
    if img.brightness < MIN_BRIGHTNESS then ([darkIssue], [])
    else if img.brightness > MAX_BRIGHTNESS then ([], [overexposedWarning])
    else ([], [])
  let resWarnings : List IssueEntry :=
    if img.width < 640 ∨ img.height < 480
    then [lowResolutionWarning img.width img.height] else []
  let issues := blurIssues ++ lighting.1
  let warnings := lighting.2 ++ resWarnings
  let s1 : ℤ := 100
  let s2 : ℤ := if img.blur_score < BLUR_THRESHOLD then s1 - 50 else s1
  let s3 : ℤ :=
    if img.brightness < MIN_BRIGHTNESS ∨ img.brightness > MAX_BRIGHTNESS
    then s2 - 30 else s2
  let s4 : ℤ := if img.width < 640 ∨ img.height < 480 then s3 - 20 else s3
  { acceptable := issues.length = 0
    quality_score := some (max 0 s4)
    blur_score := some img.blur_score
    brightness := some img.brightness
    resolution := some (img.width, img.height)
    issues := issues
    warnings := warnings
    error := none }

/-- `FaceRecognitionService.check_image_quality`: returns the
invalid-format report when the image cannot be decoded, otherwise the
computed report.  Total: the Python function catches every exception and
always returns a report dict. -/
def check_image_quality (img : Option Image) : QualityReport :=
  match img with
  | none => invalidFormatReport
  | some i => check_image_quality_decoded i

/-- Opaque face-embedding token.  The service never inspects embeddings;
it only hands them to the external `face_recognition.face_distance`
primitive, which is passed around explicitly as `dist : Emb → Emb → ℚ`. -/
structure Emb where
  tok : ℕ
deriving DecidableEq, Repr

/-- The per-class encodings dict built by `load_class_encodings`:
parallel lists `encodings`, `names`, `ids`, `roll_numbers`. -/
structure Gallery where
  encodings : List Emb
  names : List String
  ids : List ℕ
  roll_numbers : List String
deriving DecidableEq, Repr

/-- Minimum of a list of rationals (`np.min`; 0 on the empty list, where
NumPy would raise). -/
def minQ : List ℚ → ℚ
  | [] => 0
  | [x] => x
  | x :: y :: xs => min x (minQ (y :: xs))

/-- `np.argmin`: index of the first minimal element (0 on the empty list,
where NumPy would raise). -/
def argminQ : List ℚ → ℕ
  | [] => 0
  | [_] => 0
  | x :: y :: xs =>
    let j := argminQ (y :: xs)
    if (y :: xs).getD j 0 < x then j + 1 else 0

/-- Result of matching one detected face against the gallery: the local
variables `name`, `student_id`, `roll_number`, `confidence` of the face
loop in `recognize_students`. -/
structure FaceMatch where
  name : String
  student_id : Option ℕ
  roll_number : Option String
  confidence : ℚ
deriving DecidableEq, Repr

/-- The defaults the loop starts from: `name = "Unrecognized"`,
`student_id = None`, `roll_number = None`, `confidence = 0.0`. -/
def noMatch : FaceMatch :=
  { name := "Unrecognized", student_id := none, roll_number := none
    confidence := 0 }

/-- The per-face matching block of `recognize_students` (lines 225-247):
`compare_faces` marks every gallery entry within `tol`, `face_distance`
gives the distances, and the entry at `np.argmin` of the distances is
taken when it is itself within tolerance. -/
def classify_face (dist : Emb → Emb → ℚ) (g : Gallery) (tol : ℚ)
    (e : Emb) : FaceMatch :=
  let face_distances := g.encodings.map fun k => dist k e
  let face_matches := face_distances.map fun d => decide (d ≤ tol)
  if 0 < face_distances.length ∧ face_matches.contains true then
    let best_match_index := argminQ face_distances
    if face_matches.getD best_match_index false then
      { name := g.names.getD best_match_index ""
        student_id := some (g.ids.getD best_match_index 0)
        roll_number := some (g.roll_numbers.getD best_match_index "")
        confidence := 1 - face_distances.getD best_match_index 0 }
    else noMatch
  else noMatch

/-- Toy distance for concrete witnesses: 0 between equal tokens, 1
otherwise. -/
def distTok : Emb → Emb → ℚ := fun a b => if a = b then 0 else 1

/-- Toy two-entry gallery for concrete witnesses. -/
def galleryAB : Gallery :=
  { encodings := [⟨1⟩, ⟨2⟩], names := ["Alice", "Bob"], ids := [1, 2]
    roll_numbers := ["r1", "r2"] }

/-- Bounding box `(top, right, bottom, left)` as returned by
`face_recognition.face_locations`. -/
structure Loc where
  top : ℕ
  right : ℕ
  bottom : ℕ
  left : ℕ
deriving DecidableEq, Repr

/-- One detected face: its embedding and bounding box (output of the
external detector). -/
structure Face where
  emb : Emb
  location : Loc
deriving DecidableEq, Repr

/-- One element of the `recognized` list of a single-image result. -/
structure Recognized where
  student_id : Option ℕ
  name : String
  roll_number : Option String
  confidence : ℚ
deriving DecidableEq, Repr

/-- One element of the `unrecognized` list.  Each record corresponds to
exactly one crop file written with `cv2.imwrite`; the uuid file name and
the wall-clock timestamp are abstracted away. -/
structure UnrecEntry where
  location : Loc
  source_image : String
  class_subject_id : Option ℕ
deriving DecidableEq, Repr

/-- Accumulator of the face loop of `recognize_students`:
`recognized_set` (a Python `set`, modelled as the list of names added),
`recognized_list` and `unrecognized`. -/
structure LoopState where
  recognized_set : List String
  recognized_list : List Recognized
  unrecognized : List UnrecEntry
deriving DecidableEq, Repr

/-- One iteration of the face loop (lines 225-276): classify the face,
then either append a `Recognized` record (when the matched name is new),
or crop-and-save an `Unrecognized` record, or — when the matched name was
already recognized in this image — do nothing at all. -/
def process_face (dist : Emb → Emb → ℚ) (g : Gallery)
    (source_image : String) (class_subject_id : Option ℕ)
    (st : LoopState) (f : Face) : LoopState :=
  let m := classify_face dist g RECOGNITION_TOLERANCE f.emb
  if m.name ≠ "Unrecognized" ∧ m.name ∉ st.recognized_set then
    { st with
      recognized_set := st.recognized_set ++ [m.name]
      recognized_list := st.recognized_list ++
        [{ student_id := m.student_id, name := m.name
           roll_number := m.roll_number, confidence := m.confidence }] }
  else if m.name = "Unrecognized" then
    { st with
      unrecognized := st.unrecognized ++
        [{ location := f.location, source_image := source_image
           class_subject_id := class_subject_id }] }
  else st

/-- One input image for recognition: its path, its decode result (for
the quality check and the `cv2.imread` in `recognize_students`), and the
outcome of running the external detector on it (`Except.error` models a
detector exception). -/
structure RecImage where
  path : String
  quality : Option Image
  faces : Except String (List Face)

/-- The result dict of `recognize_students`.  Keys absent from a given
Python return value are `none` / `[]`. -/
structure RecResult where
  recognized : List Recognized
  unrecognized : List UnrecEntry
  total_faces : ℕ
  quality_check : QualityReport
  error : Option String
  issues : List IssueEntry
deriving DecidableEq, Repr

/-- The early return of `recognize_students` when the class has no
stored encodings (lines 201-208). -/
def emptyGalleryResult (qc : QualityReport) : RecResult :=
  { recognized := [], unrecognized := [], total_faces := 0
    quality_check := qc
    error := some "No student encodings found for this class"
    issues := [] }

/-- `FaceRecognitionService.recognize_students`.  An undecodable image
raises (`img.shape` with `img = None` in the resize block) before the
quality verdict is consulted; a quality-rejected image returns an empty
result with the issues; an empty gallery returns early with an error
message and `total_faces = 0`; otherwise every detected face is
classified and deduplicated by display name.  A detector exception
propagates: the service's `except` clause re-raises. -/
def recognize_students (dist : Emb → Emb → ℚ) (g : Gallery)
    (img : RecImage) (class_subject_id : Option ℕ) :
    Except String RecResult :=
  match img.quality with
  | none => .error "AttributeError: NoneType object has no attribute shape"
  | some q =>
    let quality_check := check_image_quality (some q)
    if quality_check.acceptable = false then
      .ok { recognized := [], unrecognized := [], total_faces := 0
            quality_check := quality_check
            error := some "Image quality not acceptable"
            issues := quality_check.issues }
    else if g.encodings = [] then
      .ok (emptyGalleryResult quality_check)
    else
      match img.faces with
      | .error e => .error e
      | .ok faces =>
        let final := faces.foldl
          (process_face dist g img.path class_subject_id) ⟨[], [], []⟩
        .ok { recognized := final.recognized_list
              unrecognized := final.unrecognized
              total_faces := faces.length
              quality_check := quality_check
              error := none, issues := [] }

/-- Number of detected faces the loop drops entirely (matched name
already recognized earlier in the same image), tracking the
`recognized_set` exactly as the loop does.  Derived counting function
used to state C10. -/
def dropped_count (dist : Emb → Emb → ℚ) (g : Gallery)
    (seen : List String) : List Face → ℕ
  | [] => 0
  | f :: fs =>
    let m := classify_face dist g RECOGNITION_TOLERANCE f.emb
    if m.name ≠ "Unrecognized" ∧ m.name ∉ seen then
      dropped_count dist g (seen ++ [m.name]) fs
    else if m.name = "Unrecognized" then
      dropped_count dist g seen fs
    else
      1 + dropped_count dist g seen fs

/-- Faces of `img` dropped by name-deduplication, 0 on any early-return
path of `recognize_students`. -/
def dropped_faces (dist : Emb → Emb → ℚ) (g : Gallery)
    (img : RecImage) : ℕ :=
  match img.quality with
  | none => 0
  | some q =>
    if (check_image_quality (some q)).acceptable = false then 0
    else if g.encodings = [] then 0
    else
      match img.faces with
      | .error _ => 0
      | .ok faces => dropped_count dist g [] faces

/-- An entry of the batch's `failed_images` list: either a
quality-rejected image (with its issues) or an image whose processing
raised (with the error string). -/
inductive FailedEntry where
  | qualityFailed (image_path : String) (issues : List IssueEntry)
  | processingError (image_path : String) (error : String)
deriving DecidableEq, Repr

/-- First value in an association list with the given key
(`dict` lookup on the `all_recognized` map keyed by `student_id`). -/
def lookupRec (id : Option ℕ) :
    List (Option ℕ × Recognized) → Option Recognized
  | [] => none
  | p :: ps => if p.1 = id then some p.2 else lookupRec id ps

/-- `dict` assignment to an existing key: replace the stored value in
place. -/
def replaceRec (id : Option ℕ) (s : Recognized)
    (m : List (Option ℕ × Recognized)) : List (Option ℕ × Recognized) :=
  m.map fun p => if p.1 = id then (id, s) else p

/-- One iteration of the merge loop of `batch_recognize_students`
(lines 324-331): insert if absent, replace only when the new confidence
is strictly greater. -/
def merge_student (m : List (Option ℕ × Recognized)) (s : Recognized) :
    List (Option ℕ × Recognized) :=
  match lookupRec s.student_id m with
  | none => m ++ [(s.student_id, s)]
  | some old =>
    if old.confidence < s.confidence then replaceRec s.student_id s m
    else m

/-- The merge loop over one image's `recognized` list. -/
def merge_recognized (m : List (Option ℕ × Recognized))
    (l : List Recognized) : List (Option ℕ × Recognized) :=
  l.foldl merge_student m

/-- Accumulator of `batch_recognize_students`. -/
structure BatchState where
  all_recognized : List (Option ℕ × Recognized)
  all_unrecognized : List UnrecEntry
  total_faces : ℕ
  quality_reports : List (String × QualityReport)
  failed_images : List FailedEntry

/-- One iteration of the image loop of `batch_recognize_students`
(lines 304-342): a raising image only extends `failed_images`; a
quality-rejected image is reported and recorded as failed; an accepted
image has its recognized list merged and its unrecognized list and face
count accumulated. -/
def batch_step (dist : Emb → Emb → ℚ) (g : Gallery)
    (class_subject_id : Option ℕ) (s : BatchState) (img : RecImage) :
    BatchState :=
  match recognize_students dist g img class_subject_id with
  | .error e =>
    { s with failed_images :=
        s.failed_images ++ [.processingError img.path e] }
  | .ok r =>
    let s1 := { s with quality_reports :=
        s.quality_reports ++ [(img.path, r.quality_check)] }
    if r.quality_check.acceptable = false then
      { s1 with failed_images :=
          s1.failed_images ++ [.qualityFailed img.path r.issues] }
    else
      { s1 with
        all_recognized := merge_recognized s1.all_recognized r.recognized
        all_unrecognized := s1.all_unrecognized ++ r.unrecognized
        total_faces := s1.total_faces + r.total_faces }

/-- The result dict of `batch_recognize_students`. -/
structure BatchResult where
  recognized : List Recognized
  unrecognized : List UnrecEntry
  total_faces : ℕ
  images_processed : ℕ
  images_failed : ℕ
  quality_reports : List (String × QualityReport)
  failed_images : List FailedEntry

/-- `FaceRecognitionService.batch_recognize_students`: fold the image
loop from the empty state, then flatten the `all_recognized` dict into
`list(all_recognized.values())`. -/
def batch_recognize_students (dist : Emb → Emb → ℚ) (g : Gallery)
    (imgs : List RecImage) (class_subject_id : Option ℕ) : BatchResult :=
  let s := imgs.foldl (batch_step dist g class_subject_id) ⟨[], [], 0, [], []⟩
  { recognized := s.all_recognized.map Prod.snd
    unrecognized := s.all_unrecognized
    total_faces := s.total_faces
    images_processed := imgs.length
    images_failed := s.failed_images.length
    quality_reports := s.quality_reports
    failed_images := s.failed_images }

/-- The contribution of one image to the batch's `recognized` merge:
its recognized list when it is processed and accepted, nothing
otherwise.  Used to state the decomposition of the batch fold. -/
def image_recs (dist : Emb → Emb → ℚ) (g : Gallery)
    (class_subject_id : Option ℕ) (img : RecImage) : List Recognized :=
  match recognize_students dist g img class_subject_id with
  | .error _ => []
  | .ok r => if r.quality_check.acceptable = false then [] else r.recognized

/-- The contribution of one image to the batch's `unrecognized` list. -/
def image_unrecs (dist : Emb → Emb → ℚ) (g : Gallery)
    (class_subject_id : Option ℕ) (img : RecImage) : List UnrecEntry :=
  match recognize_students dist g img class_subject_id with
  | .error _ => []
  | .ok r =>
    if r.quality_check.acceptable = false then [] else r.unrecognized

/-- The contribution of one image to the batch's `total_faces`. -/
def image_face_count (dist : Emb → Emb → ℚ) (g : Gallery)
    (class_subject_id : Option ℕ) (img : RecImage) : ℕ :=
  match recognize_students dist g img class_subject_id with
  | .error _ => 0
  | .ok r =>
    if r.quality_check.acceptable = false then 0 else r.total_faces

/-- The contribution of one image to the batch's `failed_images`. -/
def image_failures (dist : Emb → Emb → ℚ) (g : Gallery)
    (class_subject_id : Option ℕ) (img : RecImage) : List FailedEntry :=
  match recognize_students dist g img class_subject_id with
  | .error e => [.processingError img.path e]
  | .ok r =>
    if r.quality_check.acceptable = false then
      [.qualityFailed img.path r.issues]
    else []

/-- The contribution of one image to the batch's `quality_reports`. -/
def image_qreports (dist : Emb → Emb → ℚ) (g : Gallery)
    (class_subject_id : Option ℕ) (img : RecImage) :
    List (String × QualityReport) :=
  match recognize_students dist g img class_subject_id with
  | .error _ => []
  | .ok r => [(img.path, r.quality_check)]

/-- Confidence of the first record with the given `student_id` in a
recognized list (and `none` when the student is absent). -/
def findConf (id : Option ℕ) (l : List Recognized) : Option ℚ :=
  (l.find? fun s => decide (s.student_id = id)).map Recognized.confidence

/-- Confidences of all observations of one student in a list of
recognized records. -/
def confsOf (id : Option ℕ) (l : List Recognized) : List ℚ :=
  (l.filter fun s => decide (s.student_id = id)).map Recognized.confidence

/-- Maximum of a list of rationals, `none` for the empty list. -/
def maxQ? : List ℚ → Option ℚ
  | [] => none
  | c :: cs =>
    match maxQ? cs with
    | none => some c
    | some m => some (max c m)

/-- Combine an optional stored confidence with an optional new one,
keeping the larger.  Helper for the merge-fold characterization. -/
def omax : Option ℚ → Option ℚ → Option ℚ
  | a, none => a
  | none, some c => some c
  | some a, some c => some (max a c)

/-- Cohort key `(branch_id, year, section)` of the encodings cache
(`section` is a Lean keyword, hence the field name `sect`). -/
structure CohortKey where
  branch_id : ℕ
  year : ℕ
  sect : String
deriving DecidableEq, Repr

/-- One row of `Student.get_encodings_for_class`. -/
structure EncRow where
  encoding : Emb
  name : String
  student_id : ℕ
  roll_number : String
deriving DecidableEq, Repr

/-- The parallel-list dict `load_class_encodings` builds from the
fetched rows. -/
def buildGallery (rows : List EncRow) : Gallery :=
  { encodings := rows.map EncRow.encoding
    names := rows.map EncRow.name
    ids := rows.map EncRow.student_id
    roll_numbers := rows.map EncRow.roll_number }

/-- Lookup in the `encodings_cache` dict. -/
def lookupGallery (k : CohortKey) :
    List (CohortKey × Gallery) → Option Gallery
  | [] => none
  | p :: ps => if p.1 = k then some p.2 else lookupGallery k ps

/-- Result of one `load_class_encodings` call: the returned dict, the
cache afterwards, and how many repository fetches were performed. -/
structure LoadResult where
  gallery : Gallery
  cache : List (CohortKey × Gallery)
  fetches : ℕ

/-- `FaceRecognitionService.load_class_encodings`: serve from the cache
on a hit; otherwise fetch from the student repository, build the dict and
store it under the key.  If the repository raises, return an empty dict
WITHOUT caching it (the `except` branch, lines 142-144). -/
def load_class_encodings (repo : CohortKey → Except String (List EncRow))
    (cache : List (CohortKey × Gallery)) (k : CohortKey) : LoadResult :=
  match lookupGallery k cache with
  | some g => { gallery := g, cache := cache, fetches := 0 }
  | none =>
    match repo k with
    | .ok rows =>
      let g := buildGallery rows
      { gallery := g, cache := cache ++ [(k, g)], fetches := 1 }
    | .error _ =>
      { gallery := ⟨[], [], [], []⟩, cache := cache, fetches := 1 }

/-- Concrete inputs for witnesses. -/
def emptyGallery : Gallery := ⟨[], [], [], []⟩

def goodImg : Image := ⟨100, 100, 640, 480⟩

def loc1 : Loc := ⟨0, 10, 10, 0⟩

def loc2 : Loc := ⟨0, 30, 10, 20⟩

/-- A decodable, quality-acceptable image in which the detector finds two
faces with distinct embeddings. -/
def twoFaceImg : RecImage :=
  ⟨"class.jpg", some goodImg, .ok [⟨⟨1⟩, loc1⟩, ⟨⟨2⟩, loc2⟩]⟩

/-- A decodable, quality-acceptable image with two detected faces
carrying the same embedding (a duplicate false detection). -/
def twoFaceImgSame : RecImage :=
  ⟨"class.jpg", some goodImg, .ok [⟨⟨1⟩, loc1⟩, ⟨⟨1⟩, loc2⟩]⟩

/-- An undecodable image file: `cv2.imread` yields `None`, so
`recognize_students` raises in its resize block. -/
def badImg : RecImage := ⟨"bad.jpg", none, .ok []⟩

/-- Gallery whose two entries share the display name "Dup" but have
different student ids. -/
def galleryDup : Gallery :=
  ⟨[⟨1⟩, ⟨2⟩], ["Dup", "Dup"], [1, 2], ["r1", "r2"]⟩

/-- Single-entry gallery with `student_id = 3` (scenario 5). -/
def gallery3 : Gallery := ⟨[⟨1⟩], ["Carol"], [3], ["r3"]⟩

/-- A student repository that always succeeds with one row. -/
def repo1 : CohortKey → Except String (List EncRow) :=
  fun _ => .ok [⟨⟨1⟩, "Alice", 1, "r1"⟩]

def key1 : CohortKey := ⟨1, 2, "A"⟩

/-- A student repository whose fetch always raises (the database is
unreachable). -/
def repoFail : CohortKey → Except String (List EncRow) :=
  fun _ => .error "Database connection failed"

/-- The batch's failed-images contributions of a list of images. -/
def failedList (dist : Emb → Emb → ℚ) (g : Gallery)
    (class_subject_id : Option ℕ) (imgs : List RecImage) :
    List FailedEntry :=
  (imgs.map (image_failures dist g class_subject_id)).flatten

/-- Toy distance for the batch witnesses: distance 0.4 to the face with
token 1 and 0.2 to the face with token 2, far otherwise. -/
def dist7 : Emb → Emb → ℚ := fun _ e =>
  if e = ⟨1⟩ then mkRat 4 10 else if e = ⟨2⟩ then mkRat 2 10 else 1

/-- Single-entry gallery with `student_id = 7` (scenario 4). -/
def g7 : Gallery := ⟨[⟨10⟩], ["Greg"], [7], ["r7"]⟩

/-- First batch image: one face recognized with confidence 0.6. -/
def imgA : RecImage := ⟨"a.jpg", some goodImg, .ok [⟨⟨1⟩, loc1⟩]⟩

/-- Second batch image: one face recognized with confidence 0.8. -/
def imgB : RecImage := ⟨"b.jpg", some goodImg, .ok [⟨⟨2⟩, loc2⟩]⟩

/-- C3: for every decodable image, `acceptable` holds iff the
critical-issues list is empty; `blur_score < 50` forces `acceptable=false`
with a blur issue; `blur_score ≥ 50`, brightness in `[40,220]` and
resolution at least 640x480 give `acceptable=true` with
`quality_score=100`. -/
theorem check_quality_acceptable_iff (img : Image) :
    ((check_image_quality (some img)).acceptable = true ↔
      (check_image_quality (some img)).issues = []) ∧
    (img.blur_score < 50 →
      (check_image_quality (some img)).acceptable = false ∧
      blurIssue ∈ (check_image_quality (some img)).issues) ∧
    (50 ≤ img.blur_score → 40 ≤ img.brightness → img.brightness ≤ 220 →
      640 ≤ img.width → 480 ≤ img.height →
      (check_image_quality (some img)).acceptable = true ∧
      (check_image_quality (some img)).quality_score = some 100) := by
  simp only [check_image_quality, check_image_quality_decoded, BLUR_THRESHOLD,
    MIN_BRIGHTNESS, MAX_BRIGHTNESS]
  split_ifs <;>
    simp_all <;>
    (try casesm* _ ∨ _) <;>
    first | rfl | omega | linarith

/-- C3 witness: a sharp, well-lit 640x480 image is acceptable with score
100; a blurred image (score 10) is rejected with a blur issue. -/
theorem check_quality_acceptable_iff_witness :
    ((check_image_quality (some ⟨100, 100, 640, 480⟩)).acceptable = true ∧
      (check_image_quality (some ⟨100, 100, 640, 480⟩)).quality_score = some 100) ∧
    ((check_image_quality (some ⟨10, 100, 640, 480⟩)).acceptable = false ∧
      blurIssue ∈ (check_image_quality (some ⟨10, 100, 640, 480⟩)).issues) := by
  constructor
  · exact (check_quality_acceptable_iff ⟨100, 100, 640, 480⟩).2.2
      (by norm_num) (by norm_num) (by norm_num) (by norm_num) (by norm_num)
  · exact (check_quality_acceptable_iff ⟨10, 100, 640, 480⟩).2.1 (by norm_num)

/-- C4: mean brightness above 220 yields only a warning and never blocks
acceptance (acceptance is then decided by blur alone); brightness below 40
is a critical issue forcing rejection; the quality-score penalty for
out-of-range brightness is the same 30 points in both directions. -/
theorem overexposure_warning_only (img img2 : Image) :
    (img.brightness > 220 →
      ((check_image_quality (some img)).acceptable = true ↔
        50 ≤ img.blur_score) ∧
      overexposedWarning ∈ (check_image_quality (some img)).warnings ∧
      darkIssue ∉ (check_image_quality (some img)).issues) ∧
    (img.brightness < 40 →
      (check_image_quality (some img)).acceptable = false ∧
      darkIssue ∈ (check_image_quality (some img)).issues) ∧
    (img.blur_score = img2.blur_score → img.width = img2.width →
      img.height = img2.height → img.brightness > 220 → img2.brightness < 40 →
      (check_image_quality (some img)).quality_score =
        (check_image_quality (some img2)).quality_score) := by
  simp only [check_image_quality, check_image_quality_decoded, BLUR_THRESHOLD,
    MIN_BRIGHTNESS, MAX_BRIGHTNESS]
  refine ⟨fun hb => ?_, fun hb => ?_, fun hblur hw hh hb hb2 => ?_⟩ <;>
    split_ifs <;>
    simp_all [blurIssue, darkIssue, overexposedWarning] <;>
    linarith

/-- C4 witness: an overexposed image (brightness 230) versus a dark image
(brightness 10), otherwise identical: the former is accepted with an
overexposure warning, the latter rejected with a critical issue, and both
lose the same 30 points of quality score. -/
theorem overexposure_warning_only_witness :
    (((check_image_quality (some ⟨100, 230, 640, 480⟩)).acceptable = true ↔
        (50 : ℚ) ≤ 100) ∧
      overexposedWarning ∈
        (check_image_quality (some ⟨100, 230, 640, 480⟩)).warnings ∧
      darkIssue ∉
        (check_image_quality (some ⟨100, 230, 640, 480⟩)).issues) ∧
    ((check_image_quality (some ⟨100, 10, 640, 480⟩)).acceptable = false ∧
      darkIssue ∈ (check_image_quality (some ⟨100, 10, 640, 480⟩)).issues) ∧
    (check_image_quality (some ⟨100, 230, 640, 480⟩)).quality_score =
      (check_image_quality (some ⟨100, 10, 640, 480⟩)).quality_score :=
  ⟨(overexposure_warning_only ⟨100, 230, 640, 480⟩
      ⟨100, 10, 640, 480⟩).1 (by norm_num),
    (overexposure_warning_only ⟨100, 10, 640, 480⟩
      ⟨100, 10, 640, 480⟩).2.1 (by norm_num),
    (overexposure_warning_only ⟨100, 230, 640, 480⟩
      ⟨100, 10, 640, 480⟩).2.2 rfl rfl rfl (by norm_num) (by norm_num)⟩

/-- C5: an undecodable input yields `acceptable=false` with exactly one
issue, describing an invalid format; `check_image_quality` is a total
function — for every input (decodable or not) it returns a report rather
than raising. -/
theorem invalid_image_single_issue :
    (check_image_quality none).acceptable = false ∧
    (check_image_quality none).issues = [.plain "Invalid image format"] ∧
    (check_image_quality none).issues.length = 1 ∧
    ∀ inp : Option Image, ∃ r : QualityReport, check_image_quality inp = r :=
  ⟨rfl, rfl, rfl, fun i => ⟨check_image_quality i, rfl⟩⟩

theorem minQ_le (xs : List ℚ) (a : ℚ) (h : a ∈ xs) : minQ xs ≤ a := by
  induction xs with
  | nil => cases h
  | cons x ys ih =>
    cases ys with
    | nil => simp_all [minQ]
    | cons y zs =>
      rcases List.mem_cons.mp h with rfl | h2
      · simp [minQ]
      · exact le_trans (min_le_right _ _) (ih h2)

theorem minQ_mem (xs : List ℚ) (h : xs ≠ []) : minQ xs ∈ xs := by
  induction xs with
  | nil => exact absurd rfl h
  | cons x ys ih =>
    cases ys with
    | nil => simp [minQ]
    | cons y zs =>
      rcases le_total x (minQ (y :: zs)) with hle | hge
      · simp [minQ, min_eq_left hle]
      · have hm := ih (by simp)
        rw [minQ, min_eq_right hge]
        exact List.mem_cons_of_mem _ hm

theorem argminQ_lt_length (xs : List ℚ) (h : xs ≠ []) :
    argminQ xs < xs.length := by
  induction xs with
  | nil => exact absurd rfl h
  | cons x ys ih =>
    cases ys with
    | nil => simp [argminQ]
    | cons y zs =>
      have hy := ih (by simp)
      simp only [argminQ]
      split_ifs
      · simpa using Nat.succ_lt_succ hy
      · simp

theorem getD_argminQ (xs : List ℚ) (h : xs ≠ []) :
    xs.getD (argminQ xs) 0 = minQ xs := by
  induction xs with
  | nil => exact absurd rfl h
  | cons x ys ih =>
    cases ys with
    | nil => simp [argminQ, minQ]
    | cons y zs =>
      have ihy := ih (by simp)
      simp only [argminQ, minQ]
      split_ifs with hlt
      · rw [List.getD_cons_succ, ihy]
        rw [ihy] at hlt
        exact (min_eq_right (le_of_lt hlt)).symm
      · rw [List.getD_cons_zero]
        rw [ihy] at hlt
        exact (min_eq_left (le_of_not_lt hlt)).symm

theorem contains_true_map_le (l : List ℚ) (tol : ℚ) :
    (l.map fun d => decide (d ≤ tol)).contains true = true ↔
      ∃ d ∈ l, d ≤ tol := by
  induction l with
  | nil => simp
  | cons x xs ih => simp_all [List.contains_cons]

theorem getD_map_decide_le (l : List ℚ) (tol : ℚ) (i : ℕ)
    (h : i < l.length) :
    (l.map fun d => decide (d ≤ tol)).getD i false =
      decide (l.getD i 0 ≤ tol) := by
  rw [List.getD_eq_getElem?_getD, List.getElem?_map,
    List.getElem?_eq_getElem h, List.getD_eq_getElem _ _ h]
  rfl

/-- C2: with a non-empty gallery, a face whose minimum distance `d_min` to
the gallery entries is at most the tolerance 0.46 (ties included) is
matched to a nearest entry with `confidence = 1 - d_min`; with
`d_min > 0.46` the face keeps the `Unrecognized` defaults. -/
theorem recognize_match_tolerance (dist : Emb → Emb → ℚ) (g : Gallery)
    (e : Emb) (h : g.encodings ≠ []) :
    (minQ (g.encodings.map fun k => dist k e) ≤ RECOGNITION_TOLERANCE →
      ∃ i, i < g.encodings.length ∧
        (g.encodings.map fun k => dist k e).getD i 0 =
          minQ (g.encodings.map fun k => dist k e) ∧
        classify_face dist g RECOGNITION_TOLERANCE e =
          { name := g.names.getD i ""
            student_id := some (g.ids.getD i 0)
            roll_number := some (g.roll_numbers.getD i "")
            confidence :=
              1 - minQ (g.encodings.map fun k => dist k e) }) ∧
    (RECOGNITION_TOLERANCE < minQ (g.encodings.map fun k => dist k e) →
      classify_face dist g RECOGNITION_TOLERANCE e = noMatch) := by
  set fds := g.encodings.map fun k => dist k e with hfds
  have hne : fds ≠ [] := by
    simpa [hfds] using h
  have hlen : 0 < fds.length := List.length_pos.mpr hne
  have hbest := argminQ_lt_length fds hne
  have hgd := getD_argminQ fds hne
  constructor
  · intro hmin
    have hcontains : (fds.map fun d =>
        decide (d ≤ RECOGNITION_TOLERANCE)).contains true = true :=
      (contains_true_map_le fds RECOGNITION_TOLERANCE).mpr
        ⟨minQ fds, minQ_mem fds hne, hmin⟩
    refine ⟨argminQ fds, by simpa [hfds] using hbest, hgd, ?_⟩
    unfold classify_face
    rw [← hfds, if_pos ⟨hlen, hcontains⟩]
    simp only [getD_map_decide_le fds RECOGNITION_TOLERANCE _ hbest, hgd,
      decide_eq_true_eq]
    rw [if_pos hmin]
  · intro hmin
    have hcontains : ¬ ((fds.map fun d =>
        decide (d ≤ RECOGNITION_TOLERANCE)).contains true = true) := by
      rw [contains_true_map_le]
      rintro ⟨d, hd, hdle⟩
      exact absurd (le_trans (minQ_le fds d hd) hdle) (not_le.mpr hmin)
    unfold classify_face
    rw [← hfds, if_neg (fun hc => hcontains hc.2)]

/-- C2 witness: in the toy gallery, the face with token 2 matches entry
"Bob" at distance 0 with confidence 1, and a face with token 3 (distance 1
to every entry) is left unmatched. -/
theorem recognize_match_tolerance_witness :
    (∃ i, i < galleryAB.encodings.length ∧
      (galleryAB.encodings.map fun k => distTok k ⟨2⟩).getD i 0 =
        minQ (galleryAB.encodings.map fun k => distTok k ⟨2⟩) ∧
      classify_face distTok galleryAB RECOGNITION_TOLERANCE ⟨2⟩ =
        { name := galleryAB.names.getD i ""
          student_id := some (galleryAB.ids.getD i 0)
          roll_number := some (galleryAB.roll_numbers.getD i "")
          confidence :=
            1 - minQ (galleryAB.encodings.map fun k => distTok k ⟨2⟩) }) ∧
    classify_face distTok galleryAB RECOGNITION_TOLERANCE ⟨3⟩ = noMatch := by
  constructor
  · exact (recognize_match_tolerance distTok galleryAB ⟨2⟩
      (by simp [galleryAB])).1
      (by norm_num [galleryAB, distTok, minQ, RECOGNITION_TOLERANCE,
        Rat.mkRat_eq_div])
  · exact (recognize_match_tolerance distTok galleryAB ⟨3⟩
      (by simp [galleryAB])).2
      (by norm_num [galleryAB, distTok, minQ, RECOGNITION_TOLERANCE,
        Rat.mkRat_eq_div])

/-- C1 (amended): with a quality-acceptable image and a gallery with zero
usable encodings, `recognize_students` returns early with
`total_faces = 0`, empty recognized and unrecognized lists and the error
message "No student encodings found for this class"; no face is detected,
classified, cropped or saved. -/
theorem empty_gallery_early_return (dist : Emb → Emb → ℚ) (g : Gallery)
    (img : RecImage) (cs : Option ℕ) (q : Image)
    (hq : img.quality = some q)
    (hacc : (check_image_quality (some q)).acceptable = true)
    (hg : g.encodings = []) :
    recognize_students dist g img cs =
      .ok (emptyGalleryResult (check_image_quality (some q))) := by
  unfold recognize_students
  rw [hq]
  simp [hacc, hg]

/-- C1 amended witness: the concrete empty gallery and two-face image. -/
theorem empty_gallery_early_return_witness :
    twoFaceImg.quality = some goodImg ∧
    (check_image_quality (some goodImg)).acceptable = true ∧
    emptyGallery.encodings = [] ∧
    recognize_students distTok emptyGallery twoFaceImg none =
      .ok (emptyGalleryResult (check_image_quality (some goodImg))) :=
  ⟨rfl, rfl, rfl,
    empty_gallery_early_return distTok emptyGallery twoFaceImg none goodImg
      rfl rfl rfl⟩

/-- C1 counterexample: with an empty gallery and a decodable image in
which the detector finds two faces, `recognize_students` does NOT return
`total_faces = 2` with two unrecognized entries (as the claim states):
it returns early with `total_faces = 0` and both lists empty, and no crop
is saved. -/
theorem empty_gallery_claim_counterexample :
    (¬ ∃ r, recognize_students distTok emptyGallery twoFaceImg none =
        .ok r ∧ r.total_faces = 2 ∧ r.unrecognized.length = 2) ∧
    recognize_students distTok emptyGallery twoFaceImg none =
      .ok (emptyGalleryResult (check_image_quality (some goodImg))) := by
  constructor
  · rintro ⟨r, hr, ht, -⟩
    rw [show recognize_students distTok emptyGallery twoFaceImg none =
        .ok (emptyGalleryResult (check_image_quality (some goodImg)))
        from rfl] at hr
    injection hr with h
    subst h
    simp [emptyGalleryResult] at ht
  · rfl

theorem lookupGallery_append_self (k : CohortKey) (g : Gallery)
    (c : List (CohortKey × Gallery)) (h : lookupGallery k c = none) :
    lookupGallery k (c ++ [(k, g)]) = some g := by
  induction c with
  | nil => simp [lookupGallery]
  | cons p ps ih =>
    by_cases hp : p.1 = k
    · simp [lookupGallery, hp] at h
    · simp only [lookupGallery, List.cons_append, hp, if_false] at h ⊢
      exact ih h

/-- C7 counterexample: when the first call's repository fetch raises, the
`except` branch (lines 142-144) returns the empty fallback dict WITHOUT
caching it, so a second `load_class_encodings` call with the same cohort
key and no intervening invalidation performs a second repository fetch —
the unconditional no-re-fetch claim is false on the code. -/
theorem load_encodings_second_call_counterexample :
    (load_class_encodings repoFail
        (load_class_encodings repoFail [] key1).cache key1).fetches = 1 ∧
    ¬ (load_class_encodings repoFail
        (load_class_encodings repoFail [] key1).cache key1).fetches = 0 :=
  ⟨rfl, by decide⟩

/-- C7 (amended): calling `load_class_encodings` twice with the same
cohort key and no intervening invalidation returns the identical dict,
performs no second repository fetch, and leaves the cache unchanged —
provided the repository fetch needed by the first call succeeds (if that
fetch raises, the empty fallback dict is not cached and the second call
fetches again). -/
theorem load_encodings_second_call_cached
    (repo : CohortKey → Except String (List EncRow))
    (cache : List (CohortKey × Gallery)) (k : CohortKey)
    (rows : List EncRow) (h : repo k = .ok rows) :
    (load_class_encodings repo
        (load_class_encodings repo cache k).cache k).gallery =
      (load_class_encodings repo cache k).gallery ∧
    (load_class_encodings repo
        (load_class_encodings repo cache k).cache k).fetches = 0 ∧
    (load_class_encodings repo
        (load_class_encodings repo cache k).cache k).cache =
      (load_class_encodings repo cache k).cache := by
  cases hc : lookupGallery k cache with
  | some g =>
    simp [load_class_encodings, hc]
  | none =>
    simp [load_class_encodings, hc, h,
      lookupGallery_append_self k (buildGallery rows) cache hc]

/-- C7 witness: a fresh cache and an always-succeeding repository. -/
theorem load_encodings_second_call_cached_witness :
    (load_class_encodings repo1
        (load_class_encodings repo1 [] key1).cache key1).gallery =
      (load_class_encodings repo1 [] key1).gallery ∧
    (load_class_encodings repo1
        (load_class_encodings repo1 [] key1).cache key1).fetches = 0 ∧
    (load_class_encodings repo1
        (load_class_encodings repo1 [] key1).cache key1).cache =
      (load_class_encodings repo1 [] key1).cache :=
  load_encodings_second_call_cached repo1 [] key1
    [⟨⟨1⟩, "Alice", 1, "r1"⟩] rfl

theorem process_face_preserves_nodup (dist : Emb → Emb → ℚ) (g : Gallery)
    (src : String) (cs : Option ℕ) (st : LoopState) (f : Face)
    (hsub : ∀ r ∈ st.recognized_list, r.name ∈ st.recognized_set)
    (hnd : (st.recognized_list.map Recognized.name).Nodup) :
    (∀ r ∈ (process_face dist g src cs st f).recognized_list,
        r.name ∈ (process_face dist g src cs st f).recognized_set) ∧
    ((process_face dist g src cs st f).recognized_list.map
        Recognized.name).Nodup := by
  simp only [process_face]
  split_ifs with h1 h2
  · have hnot : (classify_face dist g RECOGNITION_TOLERANCE f.emb).name ∉
        st.recognized_list.map Recognized.name := by
      intro hmem
      rcases List.mem_map.mp hmem with ⟨r, hr, hname⟩
      exact h1.2 (hname ▸ hsub r hr)
    constructor
    · intro r hr
      simp only [List.mem_append, List.mem_singleton] at hr ⊢
      rcases hr with hr | hr
      · exact Or.inl (hsub r hr)
      · subst hr; simp
    · have hforall : ∀ x ∈ st.recognized_list,
          ¬ x.name = (classify_face dist g RECOGNITION_TOLERANCE f.emb).name :=
        fun x hx heq => hnot (List.mem_map.mpr ⟨x, hx, heq⟩)
      simpa [List.nodup_append] using ⟨hnd, hforall⟩
  · exact ⟨hsub, hnd⟩
  · exact ⟨hsub, hnd⟩

theorem loop_names_nodup (dist : Emb → Emb → ℚ) (g : Gallery)
    (src : String) (cs : Option ℕ) (faces : List Face) (st : LoopState)
    (hsub : ∀ r ∈ st.recognized_list, r.name ∈ st.recognized_set)
    (hnd : (st.recognized_list.map Recognized.name).Nodup) :
    (∀ r ∈ (faces.foldl (process_face dist g src cs) st).recognized_list,
        r.name ∈
          (faces.foldl (process_face dist g src cs) st).recognized_set) ∧
    ((faces.foldl (process_face dist g src cs) st).recognized_list.map
        Recognized.name).Nodup := by
  induction faces generalizing st with
  | nil => exact ⟨hsub, hnd⟩
  | cons f fs ih =>
    simp only [List.foldl_cons]
    have hstep := process_face_preserves_nodup dist g src cs st f hsub hnd
    exact ih _ hstep.1 hstep.2

/-- C9: within one image, the recognized list never contains two records
with the same display name — once a gallery entry (hence its name) has
matched a face, later faces matching the same entry add no further
record: first match wins per image. -/
theorem recognized_names_nodup (dist : Emb → Emb → ℚ) (g : Gallery)
    (img : RecImage) (cs : Option ℕ) (r : RecResult)
    (h : recognize_students dist g img cs = .ok r) :
    (r.recognized.map Recognized.name).Nodup := by
  unfold recognize_students at h
  cases himg : img.quality with
  | none => simp only [himg] at h; cases h
  | some q =>
    simp only [himg] at h
    split_ifs at h with hacc hg
    · injection h with h'; subst h'; simp
    · injection h with h'; subst h'; simp [emptyGalleryResult]
    · cases hf : img.faces with
      | error e => simp only [hf] at h; cases h
      | ok faces =>
        simp only [hf] at h
        injection h with h'
        subst h'
        exact (loop_names_nodup dist g img.path cs faces ⟨[], [], []⟩
          (by simp) (by simp)).2

/-- C9 witness (scenario 5): one image with two detected faces both
matching the single gallery entry with `student_id = 3` yields exactly
one Recognized record for that entry. -/
theorem recognized_names_nodup_witness :
    ∃ r, recognize_students distTok gallery3 twoFaceImgSame none =
        .ok r ∧
      (r.recognized.map Recognized.name).Nodup ∧
      (r.recognized.filter fun s =>
        decide (s.student_id = some 3)).length = 1 ∧
      r.total_faces = 2 :=
  ⟨_, rfl,
    recognized_names_nodup distTok gallery3 twoFaceImgSame none _ rfl,
    by decide, by decide⟩

theorem loop_length_invariant (dist : Emb → Emb → ℚ) (g : Gallery)
    (src : String) (cs : Option ℕ) (faces : List Face) (st : LoopState) :
    (faces.foldl (process_face dist g src cs) st).recognized_list.length +
      (faces.foldl (process_face dist g src cs) st).unrecognized.length +
      dropped_count dist g st.recognized_set faces =
    st.recognized_list.length + st.unrecognized.length + faces.length := by
  induction faces generalizing st with
  | nil => simp [dropped_count]
  | cons f fs ih =>
    simp only [List.foldl_cons, dropped_count, List.length_cons]
    split_ifs with h1 h2
    · have hset : (process_face dist g src cs st f).recognized_set =
          st.recognized_set ++
            [(classify_face dist g RECOGNITION_TOLERANCE f.emb).name] := by
        simp [process_face, h1]
      have hrec : (process_face dist g src cs st f).recognized_list.length =
          st.recognized_list.length + 1 := by
        simp [process_face, h1]
      have hunrec : (process_face dist g src cs st f).unrecognized.length =
          st.unrecognized.length := by
        simp [process_face, h1]
      have hih := ih (process_face dist g src cs st f)
      rw [hset, hrec, hunrec] at hih
      omega
    · have hset : (process_face dist g src cs st f).recognized_set =
          st.recognized_set := by
        simp [process_face, h1, h2]
      have hrec : (process_face dist g src cs st f).recognized_list.length =
          st.recognized_list.length := by
        simp [process_face, h1, h2]
      have hunrec : (process_face dist g src cs st f).unrecognized.length =
          st.unrecognized.length + 1 := by
        simp [process_face, h1, h2]
      have hih := ih (process_face dist g src cs st f)
      rw [hset, hrec, hunrec] at hih
      omega
    · have hin : (classify_face dist g RECOGNITION_TOLERANCE f.emb).name ∈
          st.recognized_set := by
        by_contra hnotin
        exact h1 ⟨h2, hnotin⟩
      have hpf : process_face dist g src cs st f = st := by
        simp [process_face, h2, hin]
      have hih := ih (process_face dist g src cs st f)
      rw [hpf] at hih ⊢
      omega

/-- C10: in every successfully returned single-image result, the
recognized and unrecognized lists together account for all detected faces
except those dropped by the display-name deduplication (a face whose
nearest match carries an already-recognized name appears in neither list
and gets no crop), so `len(recognized) + len(unrecognized) ≤ total_faces`
with strict inequality exactly when such a duplicate match occurred. -/
theorem dropped_faces_account (dist : Emb → Emb → ℚ) (g : Gallery)
    (img : RecImage) (cs : Option ℕ) (r : RecResult)
    (h : recognize_students dist g img cs = .ok r) :
    r.recognized.length + r.unrecognized.length +
        dropped_faces dist g img = r.total_faces ∧
    r.recognized.length + r.unrecognized.length ≤ r.total_faces ∧
    (r.recognized.length + r.unrecognized.length < r.total_faces ↔
      0 < dropped_faces dist g img) := by
  suffices hmain : r.recognized.length + r.unrecognized.length +
      dropped_faces dist g img = r.total_faces by
    exact ⟨hmain, by omega, by omega⟩
  unfold recognize_students at h
  unfold dropped_faces
  cases himg : img.quality with
  | none => simp only [himg] at h; cases h
  | some q =>
    simp only [himg] at h
    split_ifs at h with hacc hg
    · simp only [himg, hacc, if_true]
      injection h with h'; subst h'; simp
    · simp only [himg, hacc, if_false, hg, if_true]
      injection h with h'; subst h'; simp [emptyGalleryResult]
    · simp only [himg, hacc, if_false, hg]
      cases hf : img.faces with
      | error e => simp only [hf] at h; cases h
      | ok faces =>
        simp only [hf] at h
        injection h with h'
        subst h'
        simpa using
          loop_length_invariant dist g img.path cs faces ⟨[], [], []⟩

/-- C10 witness: two faces matching two distinct gallery entries that
share the display name "Dup" (different student ids 1 and 2): the second
face is dropped entirely — the deduplication key is the name, not the
student id — so the lists sum to 1 while two faces were detected. -/
theorem dropped_faces_account_witness :
    ∃ r, recognize_students distTok galleryDup twoFaceImg none = .ok r ∧
      r.recognized.length + r.unrecognized.length +
          dropped_faces distTok galleryDup twoFaceImg = r.total_faces ∧
      r.recognized.length + r.unrecognized.length < r.total_faces ∧
      r.recognized.map Recognized.student_id = [some 1] ∧
      r.unrecognized = [] ∧
      dropped_faces distTok galleryDup twoFaceImg = 1 ∧
      r.total_faces = 2 :=
  ⟨_, rfl,
    (dropped_faces_account distTok galleryDup twoFaceImg none _ rfl).1,
    by decide, by decide, by decide, by decide, by decide⟩

theorem omax_none_left (x : Option ℚ) : omax none x = x := by
  cases x <;> rfl

theorem omax_assoc (a b c : Option ℚ) :
    omax (omax a b) c = omax a (omax b c) := by
  cases a <;> cases b <;> cases c <;> simp [omax, max_assoc]

theorem maxQ?_cons (c : ℚ) (cs : List ℚ) :
    maxQ? (c :: cs) = omax (some c) (maxQ? cs) := by
  cases h : maxQ? cs <;> simp [maxQ?, omax, h]

theorem maxQ?_eq_none_iff (cs : List ℚ) : maxQ? cs = none ↔ cs = [] := by
  cases cs with
  | nil => simp [maxQ?]
  | cons c cs => rw [maxQ?_cons]; cases maxQ? cs <;> simp [omax]

theorem maxQ?_eq_some_iff (cs : List ℚ) (c : ℚ) :
    maxQ? cs = some c ↔ c ∈ cs ∧ ∀ x ∈ cs, x ≤ c := by
  induction cs generalizing c with
  | nil => simp [maxQ?]
  | cons c0 cs ih =>
    rw [maxQ?_cons]
    cases hm : maxQ? cs with
    | none =>
      have hnil := (maxQ?_eq_none_iff cs).mp hm
      subst hnil
      simp [omax]
      constructor
      · rintro rfl; simp
      · rintro ⟨rfl, -⟩; rfl
    | some m =>
      have hms := (ih m).mp hm
      simp only [omax, Option.some.injEq]
      constructor
      · rintro rfl
        rcases le_total c0 m with hle | hge
        · rw [max_eq_right hle]
          exact ⟨List.mem_cons_of_mem _ hms.1, by
            intro x hx
            rcases List.mem_cons.mp hx with rfl | hx2
            · exact hle
            · exact hms.2 x hx2⟩
        · rw [max_eq_left hge]
          exact ⟨List.mem_cons_self _ _, by
            intro x hx
            rcases List.mem_cons.mp hx with rfl | hx2
            · exact le_refl _
            · exact le_trans (hms.2 x hx2) hge⟩
      · rintro ⟨hmem, hbound⟩
        have h1 : c0 ≤ c := hbound c0 (by simp)
        have h2 : m ≤ c := by
          rcases le_or_lt m c with h | h
          · exact h
          · exact absurd (hbound m (List.mem_cons_of_mem _ hms.1))
              (not_le.mpr h)
        rcases List.mem_cons.mp hmem with rfl | hmem2
        · exact max_eq_left h2
        · have := hms.2 c hmem2
          have hcm : c = m := le_antisymm this h2
          subst hcm
          exact max_eq_right h1

theorem maxQ?_perm (cs cs' : List ℚ) (h : cs.Perm cs') :
    maxQ? cs = maxQ? cs' := by
  cases hm : maxQ? cs with
  | none =>
    have h1 := (maxQ?_eq_none_iff cs).mp hm
    subst h1
    have h2 : cs' = [] := h.symm.eq_nil
    subst h2
    rfl
  | some c =>
    have hc := (maxQ?_eq_some_iff cs c).mp hm
    exact ((maxQ?_eq_some_iff cs' c).mpr
      ⟨h.mem_iff.mp hc.1, fun x hx => hc.2 x (h.mem_iff.mpr hx)⟩).symm

theorem lookupRec_append_single (id k : Option ℕ) (v : Recognized)
    (m : List (Option ℕ × Recognized)) (h : lookupRec id m = none) :
    lookupRec id (m ++ [(k, v)]) =
      if k = id then some v else none := by
  induction m with
  | nil => simp [lookupRec]
  | cons p ps ih =>
    by_cases hp : p.1 = id
    · simp [lookupRec, hp] at h
    · simp only [lookupRec, hp, if_false, List.cons_append] at h ⊢
      exact ih h

theorem lookupRec_append_single_ne (id k : Option ℕ) (v : Recognized)
    (m : List (Option ℕ × Recognized)) (hk : ¬ k = id) :
    lookupRec id (m ++ [(k, v)]) = lookupRec id m := by
  induction m with
  | nil => simp [lookupRec, hk]
  | cons p ps ih =>
    by_cases hp : p.1 = id <;> simp [lookupRec, hp, ih]

theorem replaceRec_cons (k : Option ℕ) (s : Recognized)
    (p : Option ℕ × Recognized) (ps : List (Option ℕ × Recognized)) :
    replaceRec k s (p :: ps) =
      (if p.1 = k then (k, s) else p) :: replaceRec k s ps := rfl

theorem lookupRec_replaceRec (id k : Option ℕ) (s : Recognized)
    (m : List (Option ℕ × Recognized)) :
    lookupRec id (replaceRec k s m) =
      if k = id then (lookupRec k m).map (fun _ => s)
      else lookupRec id m := by
  induction m with
  | nil => by_cases hk : k = id <;> simp [replaceRec, lookupRec, hk]
  | cons p ps ih =>
    rw [replaceRec_cons]
    by_cases hp : p.1 = k
    · rw [if_pos hp]
      by_cases hk : k = id
      · subst hk
        simp [lookupRec, hp]
      · have hpid : ¬ p.1 = id := by rw [hp]; exact hk
        simp [lookupRec, hk, hpid, ih]
    · rw [if_neg hp]
      by_cases hpid : p.1 = id
      · have hk : ¬ k = id := fun hkid => hp (by rw [hkid, hpid])
        simp [lookupRec, hpid, hk]
      · simp [lookupRec, hpid, hp, ih]

theorem lookupRec_merge_student (m : List (Option ℕ × Recognized))
    (s : Recognized) (id : Option ℕ) :
    (lookupRec id (merge_student m s)).map Recognized.confidence =
      if s.student_id = id then
        omax ((lookupRec id m).map Recognized.confidence)
          (some s.confidence)
      else (lookupRec id m).map Recognized.confidence := by
  unfold merge_student
  cases hl : lookupRec s.student_id m with
  | none =>
    simp only [hl]
    by_cases hid : s.student_id = id
    · subst hid
      rw [lookupRec_append_single _ _ _ _ hl]
      simp [hl, omax]
    · rw [lookupRec_append_single_ne _ _ _ _ hid]
      simp [hid]
  | some old =>
    simp only [hl]
    by_cases hc : old.confidence < s.confidence
    · rw [if_pos hc, lookupRec_replaceRec]
      by_cases hid : s.student_id = id
      · subst hid
        simp [hl, omax, max_eq_right (le_of_lt hc)]
      · simp [hid]
    · rw [if_neg hc]
      by_cases hid : s.student_id = id
      · subst hid
        simp [hl, omax, max_eq_left (not_lt.mp hc)]
      · simp [hid]

theorem confsOf_cons (id : Option ℕ) (s : Recognized) (l : List Recognized) :
    confsOf id (s :: l) =
      if s.student_id = id then s.confidence :: confsOf id l
      else confsOf id l := by
  by_cases hid : s.student_id = id <;> simp [confsOf, hid]

theorem lookupRec_merge_recognized (l : List Recognized)
    (m : List (Option ℕ × Recognized)) (id : Option ℕ) :
    (lookupRec id (merge_recognized m l)).map Recognized.confidence =
      omax ((lookupRec id m).map Recognized.confidence)
        (maxQ? (confsOf id l)) := by
  induction l generalizing m with
  | nil => simp [merge_recognized, confsOf, maxQ?, omax]
  | cons s l ih =>
    have hstep := lookupRec_merge_student m s id
    show (lookupRec id (merge_recognized (merge_student m s) l)).map
        Recognized.confidence = _
    rw [ih (merge_student m s), hstep, confsOf_cons]
    by_cases hid : s.student_id = id
    · rw [if_pos hid, if_pos hid, maxQ?_cons, ← omax_assoc]
    · rw [if_neg hid, if_neg hid]

theorem merge_recognized_append (m : List (Option ℕ × Recognized))
    (l1 l2 : List Recognized) :
    merge_recognized m (l1 ++ l2) =
      merge_recognized (merge_recognized m l1) l2 := by
  simp [merge_recognized, List.foldl_append]

theorem batch_fold_spec (dist : Emb → Emb → ℚ) (g : Gallery)
    (cs : Option ℕ) (imgs : List RecImage) (s : BatchState) :
    (imgs.foldl (batch_step dist g cs) s).all_recognized =
      merge_recognized s.all_recognized
        ((imgs.map (image_recs dist g cs)).flatten) ∧
    (imgs.foldl (batch_step dist g cs) s).all_unrecognized =
      s.all_unrecognized ++ (imgs.map (image_unrecs dist g cs)).flatten ∧
    (imgs.foldl (batch_step dist g cs) s).total_faces =
      s.total_faces + (imgs.map (image_face_count dist g cs)).sum ∧
    (imgs.foldl (batch_step dist g cs) s).quality_reports =
      s.quality_reports ++ (imgs.map (image_qreports dist g cs)).flatten ∧
    (imgs.foldl (batch_step dist g cs) s).failed_images =
      s.failed_images ++ (imgs.map (image_failures dist g cs)).flatten := by
  induction imgs generalizing s with
  | nil => simp [merge_recognized]
  | cons img imgs ih =>
    simp only [List.foldl_cons, List.map_cons, List.flatten_cons,
      List.sum_cons]
    have hih := ih (batch_step dist g cs s img)
    cases hrec : recognize_students dist g img cs with
    | error e =>
      have hb : batch_step dist g cs s img =
          { s with failed_images :=
              s.failed_images ++ [.processingError img.path e] } := by
        simp [batch_step, hrec]
      rw [hb] at hih
      rw [hb]
      simp only [image_recs, image_unrecs, image_face_count,
        image_qreports, image_failures, hrec]
      exact ⟨by simpa using hih.1, by simpa using hih.2.1,
        by simpa using hih.2.2.1, by simpa using hih.2.2.2.1,
        by simpa [List.append_assoc] using hih.2.2.2.2⟩
    | ok r =>
      by_cases hacc : r.quality_check.acceptable = false
      · have hb : batch_step dist g cs s img =
            { s with
              quality_reports :=
                s.quality_reports ++ [(img.path, r.quality_check)]
              failed_images :=
                s.failed_images ++ [.qualityFailed img.path r.issues] } := by
          simp [batch_step, hrec, hacc]
        rw [hb] at hih
        rw [hb]
        simp only [image_recs, image_unrecs, image_face_count,
          image_qreports, image_failures, hrec, hacc, if_true]
        exact ⟨by simpa using hih.1, by simpa using hih.2.1,
          by simpa using hih.2.2.1,
          by simpa [List.append_assoc] using hih.2.2.2.1,
          by simpa [List.append_assoc] using hih.2.2.2.2⟩
      · have hb : batch_step dist g cs s img =
            { s with
              all_recognized :=
                merge_recognized s.all_recognized r.recognized
              all_unrecognized := s.all_unrecognized ++ r.unrecognized
              total_faces := s.total_faces + r.total_faces
              quality_reports :=
                s.quality_reports ++ [(img.path, r.quality_check)] } := by
          simp [batch_step, hrec, hacc]
        rw [hb] at hih
        rw [hb]
        simp only [image_recs, image_unrecs, image_face_count,
          image_qreports, image_failures, hrec, hacc, if_false]
        refine ⟨?_, ?_, ?_, ?_, ?_⟩
        · simp [hih.1, merge_recognized_append, hacc]
        · simp [hih.2.1, List.append_assoc, hacc]
        · simp [hih.2.2.1, Nat.add_assoc, hacc]
        · simp [hih.2.2.2.1, List.append_assoc, hacc]
        · simp [hih.2.2.2.2, hacc]

theorem merge_keys_invariant (l : List Recognized)
    (m : List (Option ℕ × Recognized))
    (hm : ∀ p ∈ m, p.1 = p.2.student_id) :
    ∀ p ∈ merge_recognized m l, p.1 = p.2.student_id := by
  induction l generalizing m with
  | nil => exact hm
  | cons s l ih =>
    show ∀ p ∈ merge_recognized (merge_student m s) l, p.1 = p.2.student_id
    apply ih
    unfold merge_student
    cases hl : lookupRec s.student_id m with
    | none =>
      simp only [hl]
      intro p hp
      rcases List.mem_append.mp hp with hp1 | hp2
      · exact hm p hp1
      · have : p = (s.student_id, s) := by simpa using hp2
        rw [this]
    | some old =>
      simp only [hl]
      split_ifs
      · intro p hp
        rcases List.mem_map.mp hp with ⟨q, hq, hqe⟩
        by_cases hq1 : q.1 = s.student_id
        · rw [if_pos hq1] at hqe
          rw [← hqe]
        · rw [if_neg hq1] at hqe
          rw [← hqe]
          exact hm q hq
      · exact hm

theorem findConf_map_snd (m : List (Option ℕ × Recognized))
    (hm : ∀ p ∈ m, p.1 = p.2.student_id) (id : Option ℕ) :
    findConf id (m.map Prod.snd) =
      (lookupRec id m).map Recognized.confidence := by
  induction m with
  | nil => simp [findConf, lookupRec]
  | cons p ps ih =>
    have hp := hm p (by simp)
    have hrest : ∀ q ∈ ps, q.1 = q.2.student_id :=
      fun q hq => hm q (List.mem_cons_of_mem _ hq)
    by_cases hid : p.1 = id
    · have hsid : p.2.student_id = id := by rw [← hp]; exact hid
      simp [findConf, lookupRec, hid, hsid]
    · have hsid : ¬ p.2.student_id = id := by rw [← hp]; exact hid
      simp only [findConf, lookupRec, List.map_cons, hid, if_false]
      rw [List.find?_cons_of_neg _ (by simpa using hsid)]
      exact ih hrest

/-- C6: the batch merge keyed by `student_id` keeps, for every student,
the maximum confidence over all accepted observations (insert if absent,
replace only on strictly greater confidence), and consequently processing
the images of a batch in any other order yields the same recognized map:
the same student ids and the same confidences. -/
theorem batch_merge_max_confidence :
    (∀ (l : List Recognized) (id : Option ℕ),
      (lookupRec id (merge_recognized [] l)).map Recognized.confidence =
        maxQ? (confsOf id l)) ∧
    (∀ (dist : Emb → Emb → ℚ) (g : Gallery) (cs : Option ℕ)
        (imgs imgs' : List RecImage), imgs.Perm imgs' →
      ∀ id : Option ℕ,
        findConf id
            (batch_recognize_students dist g imgs cs).recognized =
          findConf id
            (batch_recognize_students dist g imgs' cs).recognized) := by
  have hpart1 : ∀ (l : List Recognized) (id : Option ℕ),
      (lookupRec id (merge_recognized [] l)).map Recognized.confidence =
        maxQ? (confsOf id l) := by
    intro l id
    rw [lookupRec_merge_recognized]
    simp [lookupRec, omax_none_left]
  refine ⟨hpart1, ?_⟩
  intro dist g cs imgs imgs' hperm id
  have key : ∀ js : List RecImage,
      findConf id (batch_recognize_students dist g js cs).recognized =
        maxQ? (confsOf id ((js.map (image_recs dist g cs)).flatten)) := by
    intro js
    have hspec := (batch_fold_spec dist g cs js ⟨[], [], 0, [], []⟩).1
    have hkeys : ∀ p ∈ (js.foldl (batch_step dist g cs)
        ⟨[], [], 0, [], []⟩).all_recognized, p.1 = p.2.student_id := by
      rw [hspec]
      exact merge_keys_invariant _ [] (by simp)
    show findConf id ((js.foldl (batch_step dist g cs)
        ⟨[], [], 0, [], []⟩).all_recognized.map Prod.snd) = _
    rw [findConf_map_snd _ hkeys, hspec, hpart1]
  rw [key imgs, key imgs']
  exact maxQ?_perm _ _
    ((((hperm.map (image_recs dist g cs)).flatten).filter _).map _)

/-- C6 witness: images A and B both recognize student 7, with confidences
0.6 and 0.8; processing `[A, B]` and `[B, A]` gives the same recognized
map, and the surviving confidence is 0.8 (scenario 4). -/
theorem batch_merge_max_confidence_witness :
    (∀ id : Option ℕ,
      findConf id
          (batch_recognize_students dist7 g7 [imgB, imgA] none).recognized =
        findConf id
          (batch_recognize_students dist7 g7 [imgA, imgB] none).recognized) ∧
    findConf (some 7)
        (batch_recognize_students dist7 g7 [imgA, imgB] none).recognized =
      some (mkRat 8 10) ∧
    findConf (some 7)
        (batch_recognize_students dist7 g7 [imgB, imgA] none).recognized =
      some (mkRat 8 10) :=
  ⟨batch_merge_max_confidence.2 dist7 g7 none [imgB, imgA] [imgA, imgB]
      (List.Perm.swap imgA imgB []),
    of_decide_eq_true (by with_unfolding_all rfl),
    of_decide_eq_true (by with_unfolding_all rfl)⟩

theorem batch_recognize_students_def (dist : Emb → Emb → ℚ) (g : Gallery)
    (imgs : List RecImage) (cs : Option ℕ) :
    batch_recognize_students dist g imgs cs =
      { recognized := (imgs.foldl (batch_step dist g cs)
          ⟨[], [], 0, [], []⟩).all_recognized.map Prod.snd
        unrecognized := (imgs.foldl (batch_step dist g cs)
          ⟨[], [], 0, [], []⟩).all_unrecognized
        total_faces := (imgs.foldl (batch_step dist g cs)
          ⟨[], [], 0, [], []⟩).total_faces
        images_processed := imgs.length
        images_failed := (imgs.foldl (batch_step dist g cs)
          ⟨[], [], 0, [], []⟩).failed_images.length
        quality_reports := (imgs.foldl (batch_step dist g cs)
          ⟨[], [], 0, [], []⟩).quality_reports
        failed_images := (imgs.foldl (batch_step dist g cs)
          ⟨[], [], 0, [], []⟩).failed_images } := rfl

/-- C8: a batch call never aborts because one image raised: the raising
image is recorded in `failed_images` together with its error, every other
image's contribution to the recognized/unrecognized/face-count/quality
data is exactly as in the batch without the bad image, and the returned
result carries the image counts and the full failure list. -/
theorem batch_isolates_failures (dist : Emb → Emb → ℚ) (g : Gallery)
    (cs : Option ℕ) (l1 l2 : List RecImage) (bad : RecImage) (e : String)
    (h : recognize_students dist g bad cs = .error e) :
    (batch_recognize_students dist g (l1 ++ bad :: l2) cs).recognized =
      (batch_recognize_students dist g (l1 ++ l2) cs).recognized ∧
    (batch_recognize_students dist g (l1 ++ bad :: l2) cs).unrecognized =
      (batch_recognize_students dist g (l1 ++ l2) cs).unrecognized ∧
    (batch_recognize_students dist g (l1 ++ bad :: l2) cs).total_faces =
      (batch_recognize_students dist g (l1 ++ l2) cs).total_faces ∧
    (batch_recognize_students dist g (l1 ++ bad :: l2) cs).quality_reports =
      (batch_recognize_students dist g (l1 ++ l2) cs).quality_reports ∧
    (batch_recognize_students dist g (l1 ++ bad :: l2) cs).failed_images =
      failedList dist g cs l1 ++
        FailedEntry.processingError bad.path e ::
          failedList dist g cs l2 ∧
    FailedEntry.processingError bad.path e ∈
      (batch_recognize_students dist g (l1 ++ bad :: l2) cs).failed_images ∧
    (batch_recognize_students dist g (l1 ++ bad :: l2) cs).images_processed =
      l1.length + 1 + l2.length ∧
    (batch_recognize_students dist g (l1 ++ bad :: l2) cs).images_failed =
      (batch_recognize_students dist g
        (l1 ++ bad :: l2) cs).failed_images.length := by
  have hrecs : image_recs dist g cs bad = [] := by simp [image_recs, h]
  have hunrecs : image_unrecs dist g cs bad = [] := by
    simp [image_unrecs, h]
  have hcount : image_face_count dist g cs bad = 0 := by
    simp [image_face_count, h]
  have hqr : image_qreports dist g cs bad = [] := by
    simp [image_qreports, h]
  have hfail : image_failures dist g cs bad =
      [.processingError bad.path e] := by
    simp [image_failures, h]
  have hfull := batch_fold_spec dist g cs (l1 ++ bad :: l2) ⟨[], [], 0, [], []⟩
  have hbase := batch_fold_spec dist g cs (l1 ++ l2) ⟨[], [], 0, [], []⟩
  simp only [batch_recognize_students_def]
  refine ⟨?_, ?_, ?_, ?_, ?_, ?_, ?_, trivial⟩
  · rw [hfull.1, hbase.1]
    simp [List.map_append, List.flatten_append, hrecs]
  · rw [hfull.2.1, hbase.2.1]
    simp [List.map_append, List.flatten_append, hunrecs]
  · rw [hfull.2.2.1, hbase.2.2.1]
    simp [List.map_append, hcount]
  · rw [hfull.2.2.2.1, hbase.2.2.2.1]
    simp [List.map_append, List.flatten_append, hqr]
  · rw [hfull.2.2.2.2]
    simp [failedList, List.map_append, List.flatten_append, hfail]
  · rw [hfull.2.2.2.2]
    simp [List.map_append, List.flatten_append, hfail]
  · simp only [List.length_append, List.length_cons]
    omega

/-- C8 witness: a batch of a good image, an undecodable image (whose
processing raises an AttributeError in the resize block) and another good
image: the failure is recorded and the good images are still processed. -/
theorem batch_isolates_failures_witness :
    recognize_students distTok gallery3 badImg none =
      .error "AttributeError: NoneType object has no attribute shape" ∧
    (batch_recognize_students distTok gallery3
        ([twoFaceImgSame] ++ badImg :: [twoFaceImg]) none).recognized =
      (batch_recognize_students distTok gallery3
        ([twoFaceImgSame] ++ [twoFaceImg]) none).recognized ∧
    FailedEntry.processingError badImg.path
        "AttributeError: NoneType object has no attribute shape" ∈
      (batch_recognize_students distTok gallery3
        ([twoFaceImgSame] ++ badImg :: [twoFaceImg]) none).failed_images ∧
    (batch_recognize_students distTok gallery3
        ([twoFaceImgSame] ++ badImg :: [twoFaceImg]) none).images_processed
      = 3 :=
  ⟨rfl,
    (batch_isolates_failures distTok gallery3 none [twoFaceImgSame]
      [twoFaceImg] badImg _ rfl).1,
    (batch_isolates_failures distTok gallery3 none [twoFaceImgSame]
      [twoFaceImg] badImg _ rfl).2.2.2.2.2.1,
    (batch_isolates_failures distTok gallery3 none [twoFaceImgSame]
      [twoFaceImg] badImg _ rfl).2.2.2.2.2.2.1⟩

end FaceRec
